import Mathlib

/-!
Shallow embedding of the `ms-inventario` service core
(`src/services/inventario_service.py`, `src/routes/inventario.py`,
`src/domain/models.py`) and proofs about its stock-allocation and
bulk-ingestion logic.

Modelling conventions:
* Database identifiers (UUIDs) are `Nat`; dates and timestamps are `Nat`.
* The mutable database session is passed explicitly as a `State` value.
  An operation that commits returns the committed state in `Except.ok`;
  an operation that raises before committing returns `Except.error` and,
  since SQLAlchemy rolls the uncommitted transaction back, the pre-call
  state is the post-call state in the error case.
* Python `None` becomes `Option`; Python exceptions become `Except String`.
* Float columns are modelled as `Rat` (no claim depends on float rounding);
  the decimal parser accepts sign, digits and one decimal point, which is
  the fragment of Python `float` exercised by the feed format.
* Columns no claim mentions (addresses, aisle/shelf labels, certification
  payloads) are omitted from the record types.
-/

namespace MsInventario

/-! ### Python string helpers -/

def pyIsSpace (c : Char) : Bool :=
  c = ' ' || c = '\t' || c = '\n' || c = '\r' || c = '\x0b' || c = '\x0c'

/-- Python `str.strip()`. -/
def pyStrip (s : String) : String :=
  String.mk (((s.toList.dropWhile pyIsSpace).reverse.dropWhile pyIsSpace).reverse)

/-- Python `str.lower()` (ASCII fragment; the token sets compared against are
ASCII except `sí`, whose accented vowel is already lowercase). -/
def pyLower (s : String) : String :=
  String.mk (s.toList.map Char.toLower)

/-- Numeric value of a digit string (only used after an all-digits check). -/
def digitsToNat (cs : List Char) : Nat :=
  cs.foldl (fun n c => n * 10 + (c.toNat - 48)) 0

/-- Decimal fragment of Python `float()`: optional sign, digits, at most one
decimal point, at least one digit. -/
def parseDecimal? (s : String) : Option Rat :=
  let cs := (pyStrip s).toList
  let sign : Bool × List Char :=
    match cs with
    | '-' :: r => (true, r)
    | '+' :: r => (false, r)
    | r => (false, r)
  let neg := sign.1
  let body := sign.2
  match body.splitOn '.' with
  | [a] =>
      if a ≠ [] && a.all Char.isDigit then
        let v : Rat := (digitsToNat a : Rat)
        some (if neg then -v else v)
      else none
  | [a, b] =>
      if (a ≠ [] || b ≠ []) && a.all Char.isDigit && b.all Char.isDigit then
        let v : Rat := (digitsToNat a : Rat) + (digitsToNat b : Rat) / ((10 : Rat) ^ b.length)
        some (if neg then -v else v)
      else none
  | _ => none

/-- Sign/digits fragment of Python `int()`. -/
def parseInt? (s : String) : Option Int :=
  let cs := (pyStrip s).toList
  let sign : Bool × List Char :=
    match cs with
    | '-' :: r => (true, r)
    | '+' :: r => (false, r)
    | r => (false, r)
  if sign.2 ≠ [] && sign.2.all Char.isDigit then
    let v : Int := (digitsToNat sign.2 : Int)
    some (if sign.1 then -v else v)
  else none

/-! ### Data model (`src/domain/models.py`) -/

inductive InventarioEstadoEnum where
  | DISPONIBLE
  | BLOQUEADO
  | VENCIDO
  | DANIADO
deriving DecidableEq, Repr

structure Producto where
  id : Nat
  sku : String
  nombre : String
  categoria : String
  temp_min : Option Rat
  temp_max : Option Rat
  controlado : Bool
deriving DecidableEq, Repr

structure Lote where
  id : Nat
  producto_id : Nat
  codigo : String
  vencimiento : Option Nat
deriving DecidableEq, Repr

structure Ubicacion where
  id : Nat
deriving DecidableEq, Repr

structure Inventario where
  id : Nat
  lote_id : Nat
  ubicacion_id : Nat
  cantidad : Int
  fecha_ingreso : Nat
  estado : InventarioEstadoEnum
deriving DecidableEq, Repr

/-- The relational store: one list per table, plus the id generator. -/
structure State where
  productos : List Producto
  lotes : List Lote
  ubicaciones : List Ubicacion
  inventarios : List Inventario
  nextId : Nat
deriving DecidableEq, Repr

def findLote (st : State) (loteId : Nat) : Option Lote :=
  st.lotes.find? (fun l => l.id == loteId)

/-! ### `recibir_entrada` (stock entry) -/

/-- Does this stock record match the (lot, location, status) triple? -/
def tripleMatch (loteId ubicacionId : Nat) (estado : InventarioEstadoEnum)
    (inv : Inventario) : Bool :=
  inv.lote_id == loteId && inv.ubicacion_id == ubicacionId && inv.estado == estado

/-- Embedding of `inventario_service.recibir_entrada`: validate, locate the record for the
triple, accumulate into it or create it (ingestion timestamp = `now`). -/
def recibir_entrada (st : State) (loteId ubicacionId : Nat) (cantidad : Int)
    (estado : InventarioEstadoEnum) (now : Nat) :
    Except String (State × Inventario) :=
  if cantidad ≤ 0 then .error "Cantidad debe ser positiva"
  else if ¬ st.lotes.any (fun l => l.id == loteId) then .error "Lote no existe"
  else if ¬ st.ubicaciones.any (fun u => u.id == ubicacionId) then .error "Ubicación no existe"
  else
    match st.inventarios.find? (tripleMatch loteId ubicacionId estado) with
    | some inv0 =>
        let inv1 : Inventario := { inv0 with cantidad := inv0.cantidad + cantidad }
        .ok ({ st with inventarios :=
                st.inventarios.map (fun i => if i.id == inv0.id then inv1 else i) }, inv1)
    | none =>
        let inv1 : Inventario :=
          { id := st.nextId, lote_id := loteId, ubicacion_id := ubicacionId,
            cantidad := cantidad, fecha_ingreso := now, estado := estado }
        .ok ({ st with
                inventarios := st.inventarios ++ [inv1],
                nextId := st.nextId + 1 }, inv1)

/-! ### `salida_por_fefo` (FEFO depletion) -/

/-- The WHERE clause of the FEFO query: AVAILABLE records whose lot (inner
join) belongs to the product, optionally restricted to one location. -/
def fefoMatch (st : State) (productoId : Nat) (ubicacionId : Option Nat)
    (inv : Inventario) : Bool :=
  inv.estado == .DISPONIBLE
    && (match findLote st inv.lote_id with
        | some l => l.producto_id == productoId
        | none => false)
    && (match ubicacionId with
        | some u => inv.ubicacion_id == u
        | none => true)

/-- Sort key of the FEFO ORDER BY: `vencimiento IS NULL` sorts the no-expiry
lots last, then ascending expiry, then ascending ingestion timestamp. -/
def fefoKey (st : State) (inv : Inventario) : Nat × Nat × Nat :=
  match (findLote st inv.lote_id).bind Lote.vencimiento with
  | none => (1, 0, inv.fecha_ingreso)
  | some v => (0, v, inv.fecha_ingreso)

def keyLeB (x y : Nat × Nat × Nat) : Bool :=
  decide (x.1 < y.1) ||
    (x.1 == y.1 &&
      (decide (x.2.1 < y.2.1) ||
        (x.2.1 == y.2.1 && decide (x.2.2 ≤ y.2.2))))

@[reducible] def fefoRel (st : State) (a b : Inventario) : Prop :=
  keyLeB (fefoKey st a) (fefoKey st b) = true

instance (st : State) : DecidableRel (fefoRel st) :=
  fun a b => instDecidableEqBool _ _

instance (st : State) : IsTotal Inventario (fefoRel st) := by
  constructor
  intro a b
  simp only [fefoRel, keyLeB, Bool.or_eq_true, Bool.and_eq_true, decide_eq_true_eq,
    beq_iff_eq]
  omega

instance (st : State) : IsTrans Inventario (fefoRel st) := by
  constructor
  intro a b c
  simp only [fefoRel, keyLeB, Bool.or_eq_true, Bool.and_eq_true, decide_eq_true_eq,
    beq_iff_eq]
  omega

/-- The ordered record list the FEFO query returns. -/
def fefoRegistros (st : State) (productoId : Nat) (ubicacionId : Option Nat) :
    List Inventario :=
  List.insertionSort (fefoRel st) (st.inventarios.filter (fefoMatch st productoId ubicacionId))

/-- The consumption walk of `salida_por_fefo`: returns the consumption list
(record id, amount taken) and the remaining demand. -/
def fefoWalk : List Inventario → Int → Except String (List (Nat × Int) × Int)
  | [], restante => .ok ([], restante)
  | inv :: rest, restante =>
      if restante = 0 then .ok ([], restante)
      else if min inv.cantidad restante ≤ 0 then fefoWalk rest restante
      else if inv.cantidad < min inv.cantidad restante then
        .error "Stock insuficiente en registro"
      else
        match fefoWalk rest (restante - min inv.cantidad restante) with
        | .error e => .error e
        | .ok (cs, r) => .ok ((inv.id, min inv.cantidad restante) :: cs, r)

/-- Embedding of `inventario_service.salida_por_fefo`: validate, walk the FEFO-ordered
AVAILABLE records, fail if demand is not fully covered, otherwise commit the
decrements and delete the records the walk left at exactly zero. -/
def salida_por_fefo (st : State) (productoId : Nat) (cantidad : Int)
    (ubicacionId : Option Nat) :
    Except String (State × List (Nat × Int)) :=
  if cantidad ≤ 0 then .error "Cantidad debe ser positiva"
  else
    match fefoWalk (fefoRegistros st productoId ubicacionId) cantidad with
    | .error e => .error e
    | .ok (consumos, restante) =>
        if restante > 0 then .error "Stock insuficiente total"
        else
          .ok ({ st with inventarios :=
                  ((st.inventarios.map (fun inv =>
                      match consumos.find? (fun c => c.1 == inv.id) with
                      | some c => { inv with cantidad := inv.cantidad - c.2 }
                      | none => inv)).filter
                    (fun inv => !(consumos.any (fun c => c.1 == inv.id) && inv.cantidad == 0))) },
              consumos)

/-! ### Aggregation queries -/

/-- Does this record join (through its lot) to the given product? -/
def loteDeProducto (st : State) (productoId : Nat) (inv : Inventario) : Bool :=
  match findLote st inv.lote_id with
  | some l => l.producto_id == productoId
  | none => false

/-- Embedding of `inventario_service.stock_por_producto`: AVAILABLE-only quantity sum. -/
def stock_por_producto (st : State) (productoId : Nat) : Int :=
  ((st.inventarios.filter
      (fun inv => inv.estado == .DISPONIBLE && loteDeProducto st productoId inv)).map
    Inventario.cantidad).sum

/-- The inner joins of `stock_detallado`: lot belongs to the product and the
location row exists. -/
def detMatch (st : State) (productoId : Nat) (inv : Inventario) : Bool :=
  loteDeProducto st productoId inv
    && st.ubicaciones.any (fun u => u.id == inv.ubicacion_id)

/-- Grouping key of `stock_detallado`: (lot code, lot expiry, location id). -/
def detKey (st : State) (inv : Inventario) : String × Option Nat × Nat :=
  match findLote st inv.lote_id with
  | some l => (l.codigo, l.vencimiento, inv.ubicacion_id)
  | none => ("", none, inv.ubicacion_id)

/-- ORDER BY `Lote.vencimiento` of the grouped rows (nulls last, semantics of
the backing PostgreSQL store). -/
def detRel (a b : (String × Option Nat × Nat) × Int) : Prop :=
  keyLeB (match a.1.2.1 with | none => (1, 0, 0) | some v => (0, v, 0))
         (match b.1.2.1 with | none => (1, 0, 0) | some v => (0, v, 0)) = true

instance : DecidableRel detRel :=
  fun a b => instDecidableEqBool _ _

instance : IsTotal ((String × Option Nat × Nat) × Int) detRel := by
  constructor
  intro a b
  simp only [detRel, keyLeB, Bool.or_eq_true, Bool.and_eq_true, decide_eq_true_eq,
    beq_iff_eq]
  cases a.1.2.1 <;> cases b.1.2.1 <;> simp <;> omega

instance : IsTrans ((String × Option Nat × Nat) × Int) detRel := by
  constructor
  intro a b c
  simp only [detRel, keyLeB, Bool.or_eq_true, Bool.and_eq_true, decide_eq_true_eq,
    beq_iff_eq]
  cases a.1.2.1 <;> cases b.1.2.1 <;> cases c.1.2.1 <;> simp <;> omega

/-- The grouped rows of `stock_detallado` before the ORDER BY: one row per
distinct (lot code, expiry, location) key among the product's records, with
the quantity summed across every status. -/
def detGrupos (st : State) (productoId : Nat) :
    List ((String × Option Nat × Nat) × Int) :=
  ((st.inventarios.filter (detMatch st productoId)).map (detKey st)).dedup.map
    (fun k => (k,
      (((st.inventarios.filter (detMatch st productoId)).filter
          (fun i => detKey st i == k)).map Inventario.cantidad).sum))

/-- Embedding of `inventario_service.stock_detallado`: group the product records of every
status by (lot code, expiry, location), sum quantities, order by expiry. -/
def stock_detallado (st : State) (productoId : Nat) :
    List ((String × Option Nat × Nat) × Int) :=
  List.insertionSort detRel (detGrupos st productoId)

/-! ### Catalog upsert (`crear_producto`, `crear_o_recuperar_producto`) -/

/-- The `core` dict produced by `_row_to_core`. -/
structure ProductoCore where
  sku : String
  nombre : String
  categoria : String
  temp_min : Option Rat
  temp_max : Option Rat
  controlado : Bool
deriving DecidableEq, Repr

/-- Embedding of `inventario_service.crear_producto`: insert, rolling back into the
`SKU ya existe` error when the unique constraint on `sku` fires. -/
def crear_producto (st : State) (core : ProductoCore) : Except String (State × Producto) :=
  if st.productos.any (fun p => p.sku == core.sku) then .error "SKU ya existe"
  else
    let p : Producto :=
      { id := st.nextId, sku := core.sku, nombre := core.nombre,
        categoria := core.categoria, temp_min := core.temp_min,
        temp_max := core.temp_max, controlado := core.controlado }
    .ok ({ st with
            productos := st.productos ++ [p],
            nextId := st.nextId + 1 }, p)

/-- Embedding of `inventario_service._get_producto_por_sku`. -/
def get_producto_por_sku (st : State) (sku : String) : Option Producto :=
  st.productos.find? (fun p => p.sku == sku)

/-- Embedding of `inventario_service.crear_o_recuperar_producto`: look the sku up, create
on a miss, and on the `SKU ya existe` conflict fall back to a second lookup
instead of propagating the conflict. -/
def crear_o_recuperar_producto (st : State) (core : ProductoCore) :
    Except String (State × Producto) :=
  match get_producto_por_sku st core.sku with
  | some existente => .ok (st, existente)
  | none =>
      match crear_producto st core with
      | .ok r => .ok r
      | .error e =>
          if e = "SKU ya existe" then
            match get_producto_por_sku st core.sku with
            | some existente => .ok (st, existente)
            | none => .error e
          else .error e

/-! ### CSV row conversion helpers (`inventario_service`) -/

/-- A parsed CSV data row, as `csv.DictReader` hands it to the pipeline:
an association list from (normalized) header name to cell text. -/
abbrev Row : Type := List (String × String)

def rowGet (row : Row) (k : String) : Option String :=
  (List.find? (fun c => c.1 == k) row).map (fun c => c.2)

def TRUE_SET : List String := ["true", "1", "si", "sí", "y", "yes", "on"]

def FALSE_SET : List String := ["false", "0", "no", "n", "off"]

/-- Embedding of `inventario_service._to_bool`. -/
def to_bool (val : Option String) : Except String (Option Bool) :=
  match val with
  | none => .ok none
  | some v =>
      let s := pyLower (pyStrip v)
      if TRUE_SET.contains s then .ok (some true)
      else if FALSE_SET.contains s then .ok (some false)
      else if s.length > 0 && s.toList.all Char.isDigit then
        .ok (some (digitsToNat s.toList != 0))
      else .error ("Valor booleano inválido: " ++ v)

/-- Embedding of `inventario_service._to_float`. -/
def to_float (val : Option String) : Except String (Option Rat) :=
  match val with
  | none => .ok none
  | some v =>
      if v = "" then .ok none
      else
        match parseDecimal? (v.replace "," ".") with
        | some q => .ok (some q)
        | none => .error ("could not convert string to float: " ++ v)

/-- Embedding of `inventario_service._to_int`. -/
def to_int (val : Option String) : Except String (Option Int) :=
  match val with
  | none => .ok none
  | some v =>
      if v = "" then .ok none
      else
        match parseInt? v with
        | some n => .ok (some n)
        | none => .error ("invalid literal for int: " ++ v)

def REQUIRED_HEADERS : List String :=
  ["sku", "nombre", "categoria", "temp_min", "temp_max",
   "controlado", "precio", "moneda", "lead_time_dias",
   "lote_minimo", "activo"]

/-- Embedding of `inventario_service._validate_headers`: the required columns missing from
the header row. -/
def validate_headers (headers : List String) : List String :=
  REQUIRED_HEADERS.filter (fun h => ¬ headers.contains h)

/-- Embedding of `inventario_service._row_to_core` (note: it strips the textual fields but
does not reject blank ones). -/
def row_to_core (row : Row) : Except String ProductoCore := do
  let sku ← match rowGet row "sku" with
    | some v => pure (pyStrip v)
    | none => .error "KeyError: sku"
  let nombre ← match rowGet row "nombre" with
    | some v => pure (pyStrip v)
    | none => .error "KeyError: nombre"
  let categoria ← match rowGet row "categoria" with
    | some v => pure (pyStrip v)
    | none => .error "KeyError: categoria"
  let tmin ← to_float (rowGet row "temp_min")
  let tmax ← to_float (rowGet row "temp_max")
  let ctl ← to_bool (rowGet row "controlado")
  pure { sku := sku, nombre := nombre, categoria := categoria,
         temp_min := tmin, temp_max := tmax, controlado := ctl.getD false }

/-- The supplier-association payload (`schemas.AsociacionProveedor`). -/
structure AsociacionProveedor where
  producto_id : Nat
  sku_proveedor : String
  precio : Rat
  moneda : String
  lead_time_dias : Rat
  lote_minimo : Rat
  activo : Bool
deriving DecidableEq, Repr

/-- The inner `_req_str` of `_row_to_asociacion`. -/
def req_str (v : Option String) (nombre : String) : Except String String :=
  let s := pyStrip (v.getD "")
  if s = "" then .error ("Campo requerido vacío en asociación: " ++ nombre)
  else .ok s

/-- The inner `_req_float` of `_row_to_asociacion`. -/
def req_float (v : Option String) (nombre : String) : Except String Rat := do
  match ← to_float v with
  | none => .error ("Campo requerido vacío en asociación: " ++ nombre)
  | some f => .ok f

/-- Embedding of `inventario_service._row_to_asociacion`. -/
def row_to_asociacion (row : Row) (productoId : Nat) :
    Except String AsociacionProveedor := do
  let activoVal ← to_bool (rowGet row "activo")
  let skuProv ← req_str (rowGet row "sku") "sku"
  let precio ← req_float (rowGet row "precio") "precio"
  let moneda ← req_str (rowGet row "moneda") "moneda"
  let leadTime ← req_float (rowGet row "lead_time_dias") "lead_time_dias"
  let loteMin ← req_float (rowGet row "lote_minimo") "lote_minimo"
  pure { producto_id := productoId, sku_proveedor := skuProv, precio := precio,
         moneda := moneda, lead_time_dias := leadTime, lote_minimo := loteMin,
         activo := activoVal.getD false }

/-! ### `procesar_csv_productos` (service bulk-ingestion pipeline) -/

/-- The per-batch counters the pipeline returns. -/
structure Resultado where
  total : Nat
  insertados : Nat
  errores : List (Nat × String)
deriving DecidableEq, Repr

/-- One iteration of the row loop of `procesar_csv_productos`.  The HTTP
collaborator `MsClient.post` is external code (not under `src/`), so it is
abstracted as the `post` argument; a product committed by the upsert stays
committed even when a later step of the row fails. -/
def procRow (post : AsociacionProveedor → Except String Unit) (st : State)
    (row : Row) : State × Option String :=
  match row_to_core row with
  | .error e => (st, some e)
  | .ok core =>
      match crear_o_recuperar_producto st core with
      | .error e => (st, some e)
      | .ok (st1, prod) =>
          match row_to_asociacion row prod.id with
          | .error e => (st1, some e)
          | .ok asoc =>
              match post asoc with
              | .error e => (st1, some e)
              | .ok _ => (st1, none)

/-- Embedding of `inventario_service.procesar_csv_productos`: header validation, then the
independent row loop accumulating `total` / `insertados` / `errores`.
The CSV bytes are modelled post-parse as the raw field-name list plus the
data rows; data rows are numbered from 2 (row 1 is the header). -/
def csvStep (post : AsociacionProveedor → Except String Unit)
    (acc : State × Resultado) (row : Row) : State × Resultado :=
  match procRow post acc.1 row with
  | (st1, none) =>
      (st1, { acc.2 with
                total := acc.2.total + 1,
                insertados := acc.2.insertados + 1 })
  | (st1, some e) =>
      (st1, { acc.2 with
                total := acc.2.total + 1,
                errores := acc.2.errores ++ [(2 + acc.2.total, e)] })

def procesar_csv_productos (post : AsociacionProveedor → Except String Unit)
    (st : State) (fieldnames : List String) (rows : List Row) :
    Except String (State × Resultado) :=
  if validate_headers ((fieldnames.filter (fun h => h ≠ "")).map pyStrip) ≠ [] then
    .error ("Faltan columnas en el CSV: " ++ String.intercalate ", "
      (validate_headers ((fieldnames.filter (fun h => h ≠ "")).map pyStrip)))
  else
    .ok (rows.foldl (csvStep post) (st, { total := 0, insertados := 0, errores := [] }))

/-! ### Route-level CSV pipeline (`routes/inventario.py`) -/

def ROUTE_REQUIRED_HEADERS : List String :=
  ["sku", "nombre", "categoria", "temp_min", "temp_max", "controlado"]

/-- Embedding of `routes.inventario._validate_headers`: raises `HTTPException` when a
required column is missing from the (lower-cased, stripped) header set. -/
def route_validate_headers (fieldnames : List String) : Except String Unit :=
  let headers := fieldnames.map (fun h => pyLower (pyStrip h))
  let missing := ROUTE_REQUIRED_HEADERS.filter (fun h => ¬ headers.contains h)
  if missing ≠ [] then
    .error ("Faltan columnas en el CSV: " ++ String.intercalate ", " missing)
  else .ok ()

/-- Embedding of `routes.inventario._to_bool` (never raises). -/
def route_to_bool (v : Option String) : Bool :=
  match v with
  | none => false
  | some s => ["true", "1", "si", "sí", "y", "yes", "t"].contains (pyLower (pyStrip s))

/-- Embedding of `routes.inventario._to_float`. -/
def route_to_float (v : Option String) : Except String (Option Rat) :=
  match v with
  | none => .ok none
  | some s =>
      if pyStrip s = "" then .ok none
      else
        match parseDecimal? ((pyStrip s).replace "," ".") with
        | some q => .ok (some q)
        | none => .error "could not convert string to float"

/-- Embedding of `routes.inventario._row_to_payload`: build the `ProductoCreate` payload,
wrapping any conversion failure into the row-level error. -/
def route_row_to_payload (row : Row) : Except String ProductoCore :=
  let tmin := route_to_float (rowGet row "temp_min")
  let tmax := route_to_float (rowGet row "temp_max")
  match tmin, tmax with
  | .ok a, .ok b =>
      .ok { sku := pyStrip ((rowGet row "sku").getD ""),
            nombre := pyStrip ((rowGet row "nombre").getD ""),
            categoria := pyStrip ((rowGet row "categoria").getD ""),
            temp_min := a, temp_max := b,
            controlado := route_to_bool (rowGet row "controlado") }
  | .error e, _ => .error ("Error convirtiendo tipos: " ++ e)
  | _, .error e => .error ("Error convirtiendo tipos: " ++ e)

/-- Embedding of `routes.inventario._process_rows`: the route-level row loop.  It calls the
non-idempotent `crear_producto` directly, so a duplicate sku becomes a row
error.  Returns (state, inserted, errors); errors carry (line, sku, message). -/
def routeStep (acc : State × Nat × List (Nat × String × String)) (row : Row) :
    State × Nat × List (Nat × String × String) :=
  let st0 := acc.1
  let inserted := acc.2.1
  let errors := acc.2.2
  let idx := 2 + inserted + errors.length
  let skuRaw := pyStrip ((rowGet row "sku").getD "")
  match route_row_to_payload row with
  | .error e => (st0, inserted, errors ++ [(idx, skuRaw, e)])
  | .ok payload =>
      if payload.sku = "" || payload.nombre = "" || payload.categoria = "" then
        (st0, inserted, errors ++ [(idx, skuRaw, "sku, nombre y categoria son obligatorios")])
      else
        match crear_producto st0 payload with
        | .error e => (st0, inserted, errors ++ [(idx, skuRaw, e)])
        | .ok (st1, _) => (st1, inserted + 1, errors)

def process_rows (st : State) (rows : List Row) :
    State × Nat × List (Nat × String × String) :=
  rows.foldl routeStep (st, 0, [])

/-! ### Concrete states used by witnesses -/

/-- A small populated store: one product with three lots (expiries 10, 5 and
none) and stock 100/50 AVAILABLE plus 200 BLOCKED. -/
def stW : State :=
  { productos := [{ id := 1, sku := "P1", nombre := "A", categoria := "C",
                    temp_min := none, temp_max := none, controlado := false }],
    lotes := [{ id := 10, producto_id := 1, codigo := "L1", vencimiento := some 10 },
              { id := 11, producto_id := 1, codigo := "L2", vencimiento := some 5 },
              { id := 12, producto_id := 1, codigo := "L3", vencimiento := none }],
    ubicaciones := [{ id := 20 }, { id := 21 }],
    inventarios :=
      [{ id := 30, lote_id := 10, ubicacion_id := 20, cantidad := 100,
         fecha_ingreso := 1, estado := .DISPONIBLE },
       { id := 31, lote_id := 11, ubicacion_id := 20, cantidad := 50,
         fecha_ingreso := 2, estado := .DISPONIBLE },
       { id := 32, lote_id := 12, ubicacion_id := 21, cantidad := 200,
         fecha_ingreso := 3, estado := .BLOQUEADO }],
    nextId := 100 }

/-- The empty store. -/
def stEmpty : State :=
  { productos := [], lotes := [], ubicaciones := [], inventarios := [], nextId := 0 }

/-! ### C4 / C8: bulk-ingestion counters and schema gate -/

theorem csv_fold_counts (post : AsociacionProveedor → Except String Unit) :
    ∀ (rows : List Row) (st0 : State) (r0 : Resultado),
    (rows.foldl (csvStep post) (st0, r0)).2.total = r0.total + rows.length
    ∧ (rows.foldl (csvStep post) (st0, r0)).2.insertados
        + (rows.foldl (csvStep post) (st0, r0)).2.errores.length
      = r0.insertados + r0.errores.length + rows.length := by
  intro rows
  induction rows with
  | nil => intro st0 r0; simp
  | cons row rest ih =>
      intro st0 r0
      simp only [List.foldl_cons, List.length_cons]
      rcases hp : procRow post st0 row with ⟨st1, e?⟩
      rcases e? with _ | e
      · have hs : csvStep post (st0, r0) row
            = (st1, { r0 with
                        total := r0.total + 1,
                        insertados := r0.insertados + 1 }) := by
          simp only [csvStep]
          rw [hp]
        rw [hs]
        have h2 := ih st1 { r0 with
                              total := r0.total + 1,
                              insertados := r0.insertados + 1 }
        simp only at h2
        omega
      · have hs : csvStep post (st0, r0) row
            = (st1, { r0 with
                        total := r0.total + 1,
                        errores := r0.errores ++ [(2 + r0.total, e)] }) := by
          simp only [csvStep]
          rw [hp]
        rw [hs]
        have h2 := ih st1 { r0 with
                              total := r0.total + 1,
                              errores := r0.errores ++ [(2 + r0.total, e)] }
        simp only [List.length_append, List.length_cons, List.length_nil] at h2
        omega

/-- C4. For every input to the bulk CSV ingestion pipeline
(`procesar_csv_productos`), the returned counters satisfy
`total = insertados + len(errores)` and `total` counts every data row seen;
no row's failure aborts the batch (the loop always completes into an `ok`
result once headers pass), and the pipeline returns an error only for the
upfront schema failure on the header row. -/
theorem csv_total_invariant (post : AsociacionProveedor → Except String Unit)
    (st : State) (fieldnames : List String) (rows : List Row) :
    (∀ stR res, procesar_csv_productos post st fieldnames rows = .ok (stR, res) →
       res.total = res.insertados + res.errores.length ∧ res.total = rows.length)
    ∧ (∀ e, procesar_csv_productos post st fieldnames rows = .error e →
       validate_headers ((fieldnames.filter (fun h => h ≠ "")).map pyStrip) ≠ []) := by
  constructor
  · intro stR res hok
    unfold procesar_csv_productos at hok
    by_cases hm : validate_headers ((fieldnames.filter (fun h => h ≠ "")).map pyStrip) ≠ []
    · rw [if_pos hm] at hok
      exact absurd hok (by simp)
    · rw [if_neg hm] at hok
      have heq : rows.foldl (csvStep post) (st, ⟨0, 0, []⟩) = (stR, res) :=
        (Except.ok.injEq _ _).mp hok
      have hres : res = (rows.foldl (csvStep post) (st, ⟨0, 0, []⟩)).2 := by
        rw [heq]
      have hc := csv_fold_counts post rows st ⟨0, 0, []⟩
      simp only [List.length_nil] at hc
      rw [hres]
      omega
  · intro e herr
    intro hm
    unfold procesar_csv_productos at herr
    rw [if_neg (fun hcon => hcon hm)] at herr
    exact absurd herr (by simp)

theorem csv_total_invariant_witness :
    (∀ stR res, procesar_csv_productos (fun _ => .ok ()) stEmpty REQUIRED_HEADERS
        [[("sku", "A")], [("sku", "B")]] = .ok (stR, res) →
      res.total = res.insertados + res.errores.length ∧ res.total = 2) := by
  have h := csv_total_invariant (fun _ => .ok ()) stEmpty REQUIRED_HEADERS
    [[("sku", "A")], [("sku", "B")]]
  intro stR res hok
  simpa using h.1 stR res hok

/-- C8. A header row missing any required column makes the whole batch
fail with the schema error, before any row is processed: the result is the
schema `error` (so no counters and no per-row error entries are produced) and
it does not depend on the data rows, the store state, or the HTTP
collaborator. -/
theorem csv_schema_failure (post : AsociacionProveedor → Except String Unit)
    (st : State) (fieldnames : List String) (rows : List Row)
    (hmiss : validate_headers ((fieldnames.filter (fun h => h ≠ "")).map pyStrip) ≠ []) :
    procesar_csv_productos post st fieldnames rows
      = .error ("Faltan columnas en el CSV: " ++ String.intercalate ", "
          (validate_headers ((fieldnames.filter (fun h => h ≠ "")).map pyStrip)))
    ∧ ∀ (post2 : AsociacionProveedor → Except String Unit) (st2 : State) (rows2 : List Row),
        procesar_csv_productos post2 st2 fieldnames rows2
          = procesar_csv_productos post st fieldnames rows := by
  have h1 : ∀ (p : AsociacionProveedor → Except String Unit) (s : State) (rs : List Row),
      procesar_csv_productos p s fieldnames rs
        = .error ("Faltan columnas en el CSV: " ++ String.intercalate ", "
            (validate_headers ((fieldnames.filter (fun h => h ≠ "")).map pyStrip))) := by
    intro p s rs
    unfold procesar_csv_productos
    rw [if_pos hmiss]
  exact ⟨h1 post st rows, fun p2 s2 r2 => by rw [h1, h1]⟩

theorem csv_schema_failure_witness :
    procesar_csv_productos (fun _ => .ok ()) stW ["sku", "nombre"] [[("sku", "A")]]
      = .error ("Faltan columnas en el CSV: " ++ String.intercalate ", "
          (validate_headers (["sku", "nombre"].map pyStrip))) := by
  have h := csv_schema_failure (fun _ => .ok ()) stW ["sku", "nombre"] [[("sku", "A")]]
    (by decide)
  exact h.1

/-! ### C10: total stock of an absent product -/

/-- C10. `stock_por_producto` is a total function (its type is not
fallible: there is no not-found branch in the source, the SQL `SUM` is
coalesced to 0).  It returns 0 when no lot of the store belongs to the
requested product — in particular for a product id that refers to no
`Producto` row — and also when the product has no AVAILABLE stock records,
so the two situations are indistinguishable at this interface. -/
theorem stock_producto_ausente_cero (st : State) (pid : Nat) :
    ((∀ l ∈ st.lotes, l.producto_id ≠ pid) → stock_por_producto st pid = 0)
    ∧ ((∀ inv ∈ st.inventarios, inv.estado = .DISPONIBLE → loteDeProducto st pid inv = false)
        → stock_por_producto st pid = 0) := by
  constructor
  · intro h
    unfold stock_por_producto
    have hf : st.inventarios.filter
        (fun inv => inv.estado == .DISPONIBLE && loteDeProducto st pid inv) = [] := by
      rw [List.filter_eq_nil_iff]
      intro inv _
      have hlp : loteDeProducto st pid inv = false := by
        unfold loteDeProducto
        cases hfind : findLote st inv.lote_id with
        | none => rfl
        | some l =>
            have hl : l ∈ st.lotes := List.mem_of_find?_eq_some hfind
            simp [h l hl]
      simp [hlp]
    rw [hf]
    rfl
  · intro h
    unfold stock_por_producto
    have hf : st.inventarios.filter
        (fun inv => inv.estado == .DISPONIBLE && loteDeProducto st pid inv) = [] := by
      rw [List.filter_eq_nil_iff]
      intro inv hmem
      by_cases hd : inv.estado = .DISPONIBLE
      · simp [h inv hmem hd]
      · simp [beq_iff_eq, hd]
    rw [hf]
    rfl

theorem stock_producto_ausente_cero_witness :
    stock_por_producto stW 999 = 0 :=
  (stock_producto_ausente_cero stW 999).1 (by decide)

/-! ### C3: stock entry -/

/-- Total quantity held for one (lot, location, status) triple. -/
def sumTriple (st : State) (l u : Nat) (e : InventarioEstadoEnum) : Int :=
  ((st.inventarios.filter (tripleMatch l u e)).map Inventario.cantidad).sum

/-- At most one stock record exists per (lot, location, status) triple. -/
abbrev TriplesUnicas (L : List Inventario) : Prop :=
  L.Pairwise (fun a b =>
    ¬ (a.lote_id = b.lote_id ∧ a.ubicacion_id = b.ubicacion_id ∧ a.estado = b.estado))

theorem sum_filter_update (l u : Nat) (e : InventarioEstadoEnum) (c : Int) :
    ∀ (L : List Inventario) (inv0 : Inventario),
    inv0 ∈ L → (L.map Inventario.id).Nodup → tripleMatch l u e inv0 = true →
    (((L.map (fun i => if i.id == inv0.id then { inv0 with cantidad := inv0.cantidad + c } else i)).filter
        (tripleMatch l u e)).map Inventario.cantidad).sum
      = ((L.filter (tripleMatch l u e)).map Inventario.cantidad).sum + c := by
  intro L
  induction L with
  | nil =>
      intro inv0 hmem
      exact absurd hmem (List.not_mem_nil inv0)
  | cons a t ih =>
      intro inv0 hmem hnd hm
      have hnd2 : a.id ∉ t.map Inventario.id ∧ (t.map Inventario.id).Nodup := by
        rw [List.map_cons, List.nodup_cons] at hnd
        exact hnd
      rcases List.mem_cons.mp hmem with heq | hmemt
      · subst heq
        have htail : t.map (fun i =>
            if i.id == inv0.id then { inv0 with cantidad := inv0.cantidad + c } else i) = t := by
          have : ∀ i ∈ t, (if i.id == inv0.id then { inv0 with cantidad := inv0.cantidad + c } else i) = i := by
            intro i hi
            have hne : i.id ≠ inv0.id := by
              intro hcon
              exact hnd2.1 (hcon ▸ List.mem_map_of_mem Inventario.id hi)
            simp [hne]
          rw [List.map_congr_left this]
          exact List.map_id' t
        rw [List.map_cons, htail]
        have hhead : (if inv0.id == inv0.id
            then { inv0 with cantidad := inv0.cantidad + c } else inv0)
            = { inv0 with cantidad := inv0.cantidad + c } := by simp
        rw [hhead]
        have hm2 : tripleMatch l u e { inv0 with cantidad := inv0.cantidad + c } = true := hm
        rw [List.filter_cons_of_pos hm2, List.filter_cons_of_pos hm]
        simp only [List.map_cons, List.sum_cons]
        ring
      · have hne : a.id ≠ inv0.id := by
          intro hcon
          exact hnd2.1 (hcon ▸ List.mem_map_of_mem Inventario.id hmemt)
        have hha : (if a.id == inv0.id
            then { inv0 with cantidad := inv0.cantidad + c } else a) = a := by simp [hne]
        rw [List.map_cons, hha]
        have ihr := ih inv0 hmemt hnd2.2 hm
        cases hma : tripleMatch l u e a with
        | true =>
            rw [List.filter_cons_of_pos hma, List.filter_cons_of_pos hma]
            simp only [List.map_cons, List.sum_cons]
            rw [ihr]
            ring
        | false =>
            rw [List.filter_cons_of_neg (by simp [hma]), List.filter_cons_of_neg (by simp [hma])]
            exact ihr

theorem triples_unicas_update (L : List Inventario) (inv0 : Inventario) (c : Int)
    (hmem : inv0 ∈ L) (hnd : (L.map Inventario.id).Nodup)
    (hpw : TriplesUnicas L) :
    TriplesUnicas (L.map (fun i =>
      if i.id == inv0.id then { inv0 with cantidad := inv0.cantidad + c } else i)) := by
  have hfix : ∀ x ∈ L,
      (if x.id == inv0.id then { inv0 with cantidad := inv0.cantidad + c } else x).lote_id = x.lote_id
      ∧ (if x.id == inv0.id then { inv0 with cantidad := inv0.cantidad + c } else x).ubicacion_id = x.ubicacion_id
      ∧ (if x.id == inv0.id then { inv0 with cantidad := inv0.cantidad + c } else x).estado = x.estado := by
    intro x hx
    by_cases h : x.id = inv0.id
    · have hxeq : x = inv0 := List.inj_on_of_nodup_map hnd hx hmem h
      subst hxeq
      simp
    · simp [h]
  refine List.pairwise_map.mpr (List.Pairwise.imp_of_mem ?_ hpw)
  intro x y hx hy hxy hcon
  rcases hfix x hx with ⟨f1, f2, f3⟩
  rcases hfix y hy with ⟨g1, g2, g3⟩
  exact hxy ⟨f1 ▸ g1 ▸ hcon.1, f2 ▸ g2 ▸ hcon.2.1, f3 ▸ g3 ▸ hcon.2.2⟩

/-- C3. Stock entry (`recibir_entrada`): with quantity > 0 and an existing
lot and location the operation succeeds, the quantity held for the targeted
(lot, location, status) triple grows by exactly the requested quantity, and
the one-record-per-triple invariant is preserved (the unique existing record
is accumulated into, or a single new one is created — never a duplicate).
With quantity ≤ 0 it fails with the validation error, and with a missing lot
or location it fails with the corresponding not-found error; in the error
cases nothing is committed, so the store is unchanged (the embedding returns
no successor state). -/
theorem recibir_entrada_correct (st : State) (l u : Nat) (c : Int)
    (e : InventarioEstadoEnum) (now : Nat)
    (hnd : (st.inventarios.map Inventario.id).Nodup)
    (hpw : TriplesUnicas st.inventarios) :
    (0 < c → st.lotes.any (fun x => x.id == l) = true →
      st.ubicaciones.any (fun x => x.id == u) = true →
      ∃ st1 inv, recibir_entrada st l u c e now = .ok (st1, inv) ∧
        sumTriple st1 l u e = sumTriple st l u e + c ∧
        TriplesUnicas st1.inventarios)
    ∧ (c ≤ 0 → recibir_entrada st l u c e now = .error "Cantidad debe ser positiva")
    ∧ (0 < c → st.lotes.any (fun x => x.id == l) = false →
        recibir_entrada st l u c e now = .error "Lote no existe")
    ∧ (0 < c → st.lotes.any (fun x => x.id == l) = true →
        st.ubicaciones.any (fun x => x.id == u) = false →
        recibir_entrada st l u c e now = .error "Ubicación no existe") := by
  refine ⟨?_, ?_, ?_, ?_⟩
  · intro hc hl hu
    unfold recibir_entrada
    rw [if_neg (by omega), if_neg (by simp [hl]), if_neg (by simp [hu])]
    cases hfind : st.inventarios.find? (tripleMatch l u e) with
    | some inv0 =>
        refine ⟨_, _, rfl, ?_, ?_⟩
        · unfold sumTriple
          exact sum_filter_update l u e c st.inventarios inv0
            (List.mem_of_find?_eq_some hfind) hnd (List.find?_some hfind)
        · exact triples_unicas_update st.inventarios inv0 c
            (List.mem_of_find?_eq_some hfind) hnd hpw
    | none =>
        refine ⟨_, _, rfl, ?_, ?_⟩
        · unfold sumTriple
          simp only [List.filter_append, List.map_append, List.sum_append]
          have hm1 : tripleMatch l u e
              { id := st.nextId, lote_id := l, ubicacion_id := u,
                cantidad := c, fecha_ingreso := now, estado := e } = true := by
            simp [tripleMatch]
          rw [List.filter_cons_of_pos hm1]
          simp
        · simp only [List.pairwise_append]
          refine ⟨hpw, by simp, ?_⟩
          intro a ha b hb
          have hbeq : b =
              { id := st.nextId, lote_id := l, ubicacion_id := u, cantidad := c,
                fecha_ingreso := now, estado := e } := by
            simpa using hb
          subst hbeq
          have hfa : ∀ x ∈ st.inventarios, ¬ tripleMatch l u e x = true :=
            List.find?_eq_none.mp hfind
          intro hcon
          exact hfa a ha (by simp [tripleMatch, hcon.1, hcon.2.1, hcon.2.2])
  · intro hc
    unfold recibir_entrada
    rw [if_pos hc]
  · intro hc hl
    unfold recibir_entrada
    rw [if_neg (by omega), if_pos (by simp [hl])]
  · intro hc hl hu
    unfold recibir_entrada
    rw [if_neg (by omega), if_neg (by simp [hl]), if_pos (by simp [hu])]

theorem recibir_entrada_correct_witness :
    ∃ st1 inv, recibir_entrada stW 10 20 30 .DISPONIBLE 99 = .ok (st1, inv) ∧
      sumTriple st1 10 20 .DISPONIBLE = sumTriple stW 10 20 .DISPONIBLE + 30 ∧
      TriplesUnicas st1.inventarios :=
  (recibir_entrada_correct stW 10 20 30 .DISPONIBLE 99 (by decide) (by decide)).1
    (by decide) (by decide) (by decide)

/-! ### FEFO walk lemmas -/

theorem fefoWalk_ok : ∀ (L : List Inventario) (r : Int), 0 ≤ r →
    ∃ cs r2, fefoWalk L r = .ok (cs, r2) ∧ 0 ≤ r2 ∧ r2 ≤ r ∧
      (cs.map Prod.snd).sum = r - r2 := by
  intro L
  induction L with
  | nil =>
      intro r hr
      exact ⟨[], r, rfl, hr, le_refl r, by simp⟩
  | cons inv rest ih =>
      intro r hr
      by_cases h0 : r = 0
      · subst h0
        exact ⟨[], 0, by simp [fefoWalk], le_refl 0, le_refl 0, by simp⟩
      · by_cases ht : min inv.cantidad r ≤ 0
        · obtain ⟨cs, r2, heq, h1, h2, h3⟩ := ih r hr
          refine ⟨cs, r2, ?_, h1, h2, h3⟩
          simp only [fefoWalk]
          rw [if_neg h0, if_pos ht]
          exact heq
        · have htoma : 0 < min inv.cantidad r := by omega
          have htle : min inv.cantidad r ≤ r := min_le_right _ _
          obtain ⟨cs, r2, heq, h1, h2, h3⟩ := ih (r - min inv.cantidad r) (by omega)
          refine ⟨(inv.id, min inv.cantidad r) :: cs, r2, ?_, h1, by omega, ?_⟩
          · simp only [fefoWalk]
            rw [if_neg h0, if_neg ht, if_neg (not_lt.mpr (min_le_left _ _)), heq]
          · simp only [List.map_cons, List.sum_cons]
            omega

theorem fefoWalk_mem : ∀ (L : List Inventario) (r : Int) (cs : List (Nat × Int)) (r2 : Int),
    fefoWalk L r = .ok (cs, r2) →
    ∀ p ∈ cs, ∃ inv ∈ L, inv.id = p.1 ∧ 0 < p.2 ∧ p.2 ≤ inv.cantidad := by
  intro L
  induction L with
  | nil =>
      intro r cs r2 heq p hp
      simp only [fefoWalk, Except.ok.injEq, Prod.mk.injEq] at heq
      rw [← heq.1] at hp
      exact absurd hp (List.not_mem_nil p)
  | cons inv rest ih =>
      intro r cs r2 heq p hp
      by_cases h0 : r = 0
      · subst h0
        simp only [fefoWalk, if_pos, Except.ok.injEq, Prod.mk.injEq] at heq
        rw [← heq.1] at hp
        exact absurd hp (List.not_mem_nil p)
      · by_cases ht : min inv.cantidad r ≤ 0
        · simp only [fefoWalk] at heq
          rw [if_neg h0, if_pos ht] at heq
          obtain ⟨inv2, hmem, h⟩ := ih r cs r2 heq p hp
          exact ⟨inv2, List.mem_cons_of_mem inv hmem, h⟩
        · simp only [fefoWalk] at heq
          rw [if_neg h0, if_neg ht, if_neg (not_lt.mpr (min_le_left _ _))] at heq
          rcases hrec : fefoWalk rest (r - min inv.cantidad r) with e | ⟨cs2, r3⟩
          · rw [hrec] at heq
            exact absurd heq (by simp)
          · rw [hrec] at heq
            simp only [Except.ok.injEq, Prod.mk.injEq] at heq
            rw [← heq.1] at hp
            rcases List.mem_cons.mp hp with hph | hpt
            · subst hph
              exact ⟨inv, List.mem_cons_self inv rest, rfl, by omega, min_le_left _ _⟩
            · obtain ⟨inv2, hmem, h⟩ := ih _ cs2 r3 hrec p hpt
              exact ⟨inv2, List.mem_cons_of_mem inv hmem, h⟩

theorem fefoWalk_sublist : ∀ (L : List Inventario) (r : Int) (cs : List (Nat × Int)) (r2 : Int),
    fefoWalk L r = .ok (cs, r2) →
    List.Sublist (cs.map Prod.fst) (L.map Inventario.id) := by
  intro L
  induction L with
  | nil =>
      intro r cs r2 heq
      simp only [fefoWalk, Except.ok.injEq, Prod.mk.injEq] at heq
      rw [← heq.1]
      simp
  | cons inv rest ih =>
      intro r cs r2 heq
      by_cases h0 : r = 0
      · subst h0
        simp only [fefoWalk, if_pos, Except.ok.injEq, Prod.mk.injEq] at heq
        rw [← heq.1]
        simp
      · by_cases ht : min inv.cantidad r ≤ 0
        · simp only [fefoWalk] at heq
          rw [if_neg h0, if_pos ht] at heq
          exact List.Sublist.cons inv.id (ih r cs r2 heq)
        · simp only [fefoWalk] at heq
          rw [if_neg h0, if_neg ht, if_neg (not_lt.mpr (min_le_left _ _))] at heq
          rcases hrec : fefoWalk rest (r - min inv.cantidad r) with e | ⟨cs2, r3⟩
          · rw [hrec] at heq
            exact absurd heq (by simp)
          · rw [hrec] at heq
            simp only [Except.ok.injEq, Prod.mk.injEq] at heq
            rw [← heq.1]
            simp only [List.map_cons]
            exact List.Sublist.cons₂ inv.id (ih _ cs2 r3 hrec)

theorem fefoWalk_le_sum : ∀ (L : List Inventario) (r : Int) (cs : List (Nat × Int)) (r2 : Int),
    (∀ inv ∈ L, 0 ≤ inv.cantidad) →
    fefoWalk L r = .ok (cs, r2) →
    r - r2 ≤ (L.map Inventario.cantidad).sum := by
  intro L
  induction L with
  | nil =>
      intro r cs r2 _ heq
      simp only [fefoWalk, Except.ok.injEq, Prod.mk.injEq] at heq
      rw [← heq.2]
      simp
  | cons inv rest ih =>
      intro r cs r2 hnn heq
      have hnr : ∀ i ∈ rest, 0 ≤ i.cantidad :=
        fun i hi => hnn i (List.mem_cons_of_mem inv hi)
      have hsr : 0 ≤ (rest.map Inventario.cantidad).sum := by
        apply List.sum_nonneg
        intro x hx
        obtain ⟨i, hi, hxe⟩ := List.mem_map.mp hx
        rw [← hxe]
        exact hnr i hi
      have hinv : 0 ≤ inv.cantidad := hnn inv (List.mem_cons_self inv rest)
      by_cases h0 : r = 0
      · subst h0
        simp only [fefoWalk, if_pos, Except.ok.injEq, Prod.mk.injEq] at heq
        rw [← heq.2]
        simp only [List.map_cons, List.sum_cons]
        omega
      · by_cases ht : min inv.cantidad r ≤ 0
        · simp only [fefoWalk] at heq
          rw [if_neg h0, if_pos ht] at heq
          have := ih r cs r2 hnr heq
          simp only [List.map_cons, List.sum_cons]
          omega
        · simp only [fefoWalk] at heq
          rw [if_neg h0, if_neg ht, if_neg (not_lt.mpr (min_le_left _ _))] at heq
          rcases hrec : fefoWalk rest (r - min inv.cantidad r) with e | ⟨cs2, r3⟩
          · rw [hrec] at heq
            exact absurd heq (by simp)
          · rw [hrec] at heq
            simp only [Except.ok.injEq, Prod.mk.injEq] at heq
            have hb := ih _ cs2 r3 hnr hrec
            have hminle : min inv.cantidad r ≤ inv.cantidad := min_le_left _ _
            simp only [List.map_cons, List.sum_cons]
            omega

/-- Dissect a successful `salida_por_fefo` call: the quantity was positive,
the walk over the FEFO-ordered records consumed it completely (remainder 0),
and the committed state is the decrement-then-delete image of the store. -/
theorem salida_ok_cases (st : State) (pid : Nat) (c : Int) (uloc : Option Nat)
    (st1 : State) (cs : List (Nat × Int))
    (hok : salida_por_fefo st pid c uloc = .ok (st1, cs)) :
    0 < c ∧ fefoWalk (fefoRegistros st pid uloc) c = .ok (cs, 0) ∧
    st1 = { st with inventarios :=
      ((st.inventarios.map (fun inv =>
          match cs.find? (fun p => p.1 == inv.id) with
          | some p => { inv with cantidad := inv.cantidad - p.2 }
          | none => inv)).filter
        (fun inv => !(cs.any (fun p => p.1 == inv.id) && inv.cantidad == 0))) } := by
  unfold salida_por_fefo at hok
  by_cases hc : c ≤ 0
  · rw [if_pos hc] at hok
    exact absurd hok (by simp)
  · rw [if_neg hc] at hok
    rcases hw : fefoWalk (fefoRegistros st pid uloc) c with e | ⟨cs0, r2⟩
    · simp only [hw] at hok
      exact absurd hok (by simp)
    · simp only [hw] at hok
      by_cases hr : r2 > 0
      · rw [if_pos hr] at hok
        exact absurd hok (by simp)
      · rw [if_neg hr] at hok
        simp only [Except.ok.injEq, Prod.mk.injEq] at hok
        obtain ⟨cs2, r3, heq2, hnng, _, _⟩ :=
          fefoWalk_ok (fefoRegistros st pid uloc) c (by omega)
        rw [hw] at heq2
        simp only [Except.ok.injEq, Prod.mk.injEq] at heq2
        have hr2 : r2 = 0 := by omega
        subst hr2
        refine ⟨by omega, ?_, ?_⟩
        · rw [hok.2]
        · rw [← hok.1, hok.2]

/-- C1. A successful FEFO depletion (`salida_por_fefo`) had a positive
requested quantity; the visited list is sorted by the FEFO order (no-expiry
lots last, then ascending expiry, ties by ascending ingestion timestamp) and
is exactly (a permutation restored to sorted order of) the AVAILABLE records
of the product under the optional location filter; the consumed amounts are
positive, bounded by the source record's quantity, taken from AVAILABLE
records only and following the visit order; their sum is exactly the
requested quantity; and every record outside of the considered AVAILABLE set
reaches the committed state untouched. -/
theorem fefo_correct (st : State) (pid : Nat) (c : Int) (uloc : Option Nat)
    (st1 : State) (consumos : List (Nat × Int))
    (hnd : (st.inventarios.map Inventario.id).Nodup)
    (hok : salida_por_fefo st pid c uloc = .ok (st1, consumos)) :
    0 < c
    ∧ List.Sorted (fefoRel st) (fefoRegistros st pid uloc)
    ∧ (fefoRegistros st pid uloc).Perm (st.inventarios.filter (fefoMatch st pid uloc))
    ∧ (consumos.map Prod.snd).sum = c
    ∧ (∀ p ∈ consumos, ∃ inv ∈ st.inventarios,
        fefoMatch st pid uloc inv = true ∧ inv.id = p.1 ∧ 0 < p.2 ∧ p.2 ≤ inv.cantidad)
    ∧ List.Sublist (consumos.map Prod.fst) ((fefoRegistros st pid uloc).map Inventario.id)
    ∧ (∀ inv ∈ st.inventarios, fefoMatch st pid uloc inv = false → inv ∈ st1.inventarios) := by
  obtain ⟨hc, hw, hst1⟩ := salida_ok_cases st pid c uloc st1 consumos hok
  have hperm : (fefoRegistros st pid uloc).Perm (st.inventarios.filter (fefoMatch st pid uloc)) :=
    List.perm_insertionSort _ _
  have hmem : ∀ p ∈ consumos, ∃ inv ∈ st.inventarios,
      fefoMatch st pid uloc inv = true ∧ inv.id = p.1 ∧ 0 < p.2 ∧ p.2 ≤ inv.cantidad := by
    intro p hp
    obtain ⟨inv, hinv, hid, hpos, hle⟩ :=
      fefoWalk_mem (fefoRegistros st pid uloc) c consumos 0 hw p hp
    have hinv2 := List.mem_filter.mp (hperm.mem_iff.mp hinv)
    exact ⟨inv, hinv2.1, hinv2.2, hid, hpos, hle⟩
  refine ⟨hc, List.sorted_insertionSort _ _, hperm, ?_, hmem, ?_, ?_⟩
  · obtain ⟨cs2, r3, heq2, _, _, hsum⟩ :=
      fefoWalk_ok (fefoRegistros st pid uloc) c (by omega)
    rw [hw] at heq2
    simp only [Except.ok.injEq, Prod.mk.injEq] at heq2
    rw [← heq2.1, ← heq2.2] at hsum
    omega
  · exact fefoWalk_sublist (fefoRegistros st pid uloc) c consumos 0 hw
  · intro inv hinv hnm
    have hnotin : ∀ p ∈ consumos, p.1 ≠ inv.id := by
      intro p hp hcon
      obtain ⟨inv2, hinv2, hm2, hid2, _, _⟩ := hmem p hp
      have : inv2 = inv := List.inj_on_of_nodup_map hnd hinv2 hinv (by rw [hid2, hcon])
      rw [this] at hm2
      rw [hm2] at hnm
      exact absurd hnm (by simp)
    have hfind : consumos.find? (fun p => p.1 == inv.id) = none := by
      rw [List.find?_eq_none]
      intro p hp
      simp [hnotin p hp]
    have hany : consumos.any (fun p => p.1 == inv.id) = false := by
      rw [List.any_eq_false]
      intro p hp
      simp [hnotin p hp]
    rw [hst1]
    simp only
    apply List.mem_filter.mpr
    constructor
    · have : (fun i : Inventario =>
          match consumos.find? (fun p => p.1 == i.id) with
          | some p => { i with cantidad := i.cantidad - p.2 }
          | none => i) inv = inv := by
        simp only [hfind]
      rw [← this]
      exact List.mem_map_of_mem _ hinv
    · rw [hany]
      simp

/-- C2. When the total AVAILABLE quantity of the product (under the
optional location filter) is smaller than the positive requested quantity,
`salida_por_fefo` fails with the insufficient-stock error.  The embedding
returns no successor state on an error — the code raises before `commit`, so
the transaction is rolled back and every stock record keeps its prior
quantity (pre/post state equality). -/
theorem fefo_insuficiente (st : State) (pid : Nat) (c : Int) (uloc : Option Nat)
    (hc : 0 < c)
    (hnn : ∀ inv ∈ st.inventarios, fefoMatch st pid uloc inv = true → 0 ≤ inv.cantidad)
    (hlt : ((st.inventarios.filter (fefoMatch st pid uloc)).map Inventario.cantidad).sum < c) :
    salida_por_fefo st pid c uloc = .error "Stock insuficiente total" := by
  unfold salida_por_fefo
  rw [if_neg (by omega)]
  obtain ⟨cs, r2, heq, hr2, hr2le, hsum⟩ :=
    fefoWalk_ok (fefoRegistros st pid uloc) c (by omega)
  have hperm : (fefoRegistros st pid uloc).Perm (st.inventarios.filter (fefoMatch st pid uloc)) :=
    List.perm_insertionSort _ _
  have hsum_eq : ((fefoRegistros st pid uloc).map Inventario.cantidad).sum
      = ((st.inventarios.filter (fefoMatch st pid uloc)).map Inventario.cantidad).sum :=
    (hperm.map Inventario.cantidad).sum_eq
  have hnn2 : ∀ inv ∈ fefoRegistros st pid uloc, 0 ≤ inv.cantidad := by
    intro inv hm
    have h2 := List.mem_filter.mp (hperm.mem_iff.mp hm)
    exact hnn inv h2.1 h2.2
  have hb := fefoWalk_le_sum (fefoRegistros st pid uloc) c cs r2 hnn2 heq
  simp only [heq]
  rw [if_pos (by omega)]

theorem fefo_correct_witness :
    (([((31 : Nat), (50 : Int)), (30, 70)].map Prod.snd).sum = 120)
    ∧ (∀ inv ∈ stW.inventarios, fefoMatch stW 1 none inv = false →
        inv ∈ ({ stW with inventarios :=
          [{ id := 30, lote_id := 10, ubicacion_id := 20, cantidad := 30,
             fecha_ingreso := 1, estado := .DISPONIBLE },
           { id := 32, lote_id := 12, ubicacion_id := 21, cantidad := 200,
             fecha_ingreso := 3, estado := .BLOQUEADO }] } : State).inventarios) := by
  have h := fefo_correct stW 1 120 none
    { stW with inventarios :=
        [{ id := 30, lote_id := 10, ubicacion_id := 20, cantidad := 30,
           fecha_ingreso := 1, estado := .DISPONIBLE },
         { id := 32, lote_id := 12, ubicacion_id := 21, cantidad := 200,
           fecha_ingreso := 3, estado := .BLOQUEADO }] }
    [(31, 50), (30, 70)] (by decide) rfl
  exact ⟨h.2.2.2.1, h.2.2.2.2.2.2⟩

theorem fefo_insuficiente_witness :
    salida_por_fefo stW 1 1000 none = .error "Stock insuficiente total" :=
  fefo_insuficiente stW 1 1000 none (by decide) (by decide) (by decide)

/-! ### C7: no record is left at a non-positive quantity -/

theorem fefoRegistros_nodup (st : State) (pid : Nat) (uloc : Option Nat)
    (hnd : (st.inventarios.map Inventario.id).Nodup) :
    ((fefoRegistros st pid uloc).map Inventario.id).Nodup := by
  have hfsub : List.Sublist
      ((st.inventarios.filter (fefoMatch st pid uloc)).map Inventario.id)
      (st.inventarios.map Inventario.id) :=
    List.Sublist.map Inventario.id (List.filter_sublist st.inventarios)
  have hfnd := hfsub.nodup hnd
  have hperm := (List.perm_insertionSort (fefoRel st)
    (st.inventarios.filter (fefoMatch st pid uloc))).map Inventario.id
  exact (hperm.nodup_iff).mpr hfnd

/-- C7. After a successful entry and after a successful FEFO depletion,
every remaining stock record is strictly positive (assuming all were before,
which is the maintained store invariant): the FEFO decrement never drives a
quantity negative, a record fully consumed to exactly zero is deleted from
the committed state (while its consumption entry stays in the returned list,
which is assembled before the deletes), and a non-positive record met
mid-walk is skipped — every entry of the returned consumption list carries a
strictly positive amount. -/
theorem positividad_preservada (st : State) :
    (∀ (l u : Nat) (c : Int) (e : InventarioEstadoEnum) (now : Nat) (st1 : State) (inv : Inventario),
        (∀ i ∈ st.inventarios, 0 < i.cantidad) →
        recibir_entrada st l u c e now = .ok (st1, inv) →
        ∀ i ∈ st1.inventarios, 0 < i.cantidad)
    ∧ (∀ (pid : Nat) (c : Int) (uloc : Option Nat) (st1 : State) (cs : List (Nat × Int)),
        (st.inventarios.map Inventario.id).Nodup →
        salida_por_fefo st pid c uloc = .ok (st1, cs) →
        (∀ p ∈ cs, 0 < p.2)
        ∧ ((∀ i ∈ st.inventarios, 0 < i.cantidad) → ∀ i ∈ st1.inventarios, 0 < i.cantidad)
        ∧ (∀ i ∈ st.inventarios, (i.id, i.cantidad) ∈ cs →
            ∀ j ∈ st1.inventarios, j.id ≠ i.id)) := by
  constructor
  · intro l u c e now st1 inv hpos hok
    unfold recibir_entrada at hok
    by_cases h1 : c ≤ 0
    · rw [if_pos h1] at hok
      exact absurd hok (by simp)
    rw [if_neg h1] at hok
    by_cases h2 : st.lotes.any (fun x => x.id == l) = true
    case neg =>
      rw [if_pos h2] at hok
      exact absurd hok (by simp)
    rw [if_neg (not_not_intro h2)] at hok
    by_cases h3 : st.ubicaciones.any (fun x => x.id == u) = true
    case neg =>
      rw [if_pos h3] at hok
      exact absurd hok (by simp)
    rw [if_neg (not_not_intro h3)] at hok
    cases hfind : st.inventarios.find? (tripleMatch l u e) with
    | some inv0 =>
        simp only [hfind, Except.ok.injEq, Prod.mk.injEq] at hok
        intro i hi
        rw [← hok.1] at hi
        obtain ⟨x, hx, hxe⟩ := List.mem_map.mp hi
        by_cases hid : x.id == inv0.id
        · rw [if_pos hid] at hxe
          have hi0 : 0 < inv0.cantidad := hpos inv0 (List.mem_of_find?_eq_some hfind)
          rw [← hxe]
          simp only
          omega
        · rw [if_neg hid] at hxe
          rw [← hxe]
          exact hpos x hx
    | none =>
        simp only [hfind, Except.ok.injEq, Prod.mk.injEq] at hok
        intro i hi
        rw [← hok.1] at hi
        rcases List.mem_append.mp hi with hold | hnew
        · exact hpos i hold
        · have : i =
              { id := st.nextId, lote_id := l, ubicacion_id := u, cantidad := c,
                fecha_ingreso := now, estado := e } := by simpa using hnew
          rw [this]
          simp only
          omega
  · intro pid c uloc st1 cs hnd hok
    obtain ⟨hc, hw, hst1⟩ := salida_ok_cases st pid c uloc st1 cs hok
    have hregnd := fefoRegistros_nodup st pid uloc hnd
    have hcsnd : (cs.map Prod.fst).Nodup :=
      (fefoWalk_sublist (fefoRegistros st pid uloc) c cs 0 hw).nodup hregnd
    have hperm : (fefoRegistros st pid uloc).Perm
        (st.inventarios.filter (fefoMatch st pid uloc)) :=
      List.perm_insertionSort _ _
    have hmem : ∀ p ∈ cs, ∃ inv ∈ st.inventarios,
        inv.id = p.1 ∧ 0 < p.2 ∧ p.2 ≤ inv.cantidad := by
      intro p hp
      obtain ⟨inv, hinv, h⟩ := fefoWalk_mem (fefoRegistros st pid uloc) c cs 0 hw p hp
      exact ⟨inv, (List.mem_filter.mp (hperm.mem_iff.mp hinv)).1, h⟩
    refine ⟨?_, ?_, ?_⟩
    · intro p hp
      obtain ⟨inv, _, _, hpos, _⟩ := hmem p hp
      exact hpos
    · intro hpos i hi
      rw [hst1] at hi
      obtain ⟨hmm, hkeep⟩ := List.mem_filter.mp hi
      obtain ⟨x, hx, hxe⟩ := List.mem_map.mp hmm
      cases hf : cs.find? (fun p => p.1 == x.id) with
      | none =>
          simp only [hf] at hxe
          rw [← hxe]
          exact hpos x hx
      | some p =>
          simp only [hf] at hxe
          have hp : p ∈ cs := List.mem_of_find?_eq_some hf
          have hp1 : p.1 = x.id := by
            have := List.find?_some hf
            exact beq_iff_eq.mp this
          obtain ⟨inv2, hinv2, hid2, _, hle2⟩ := hmem p hp
          have hx2 : inv2 = x :=
            List.inj_on_of_nodup_map hnd hinv2 hx (by rw [hid2, hp1])
          rw [hx2] at hle2
          have hii : i.cantidad = x.cantidad - p.2 := by rw [← hxe]
          have hiid : i.id = x.id := by rw [← hxe]
          have hge : 0 ≤ i.cantidad := by
            have := hpos x hx
            omega
          have hanyt : cs.any (fun q => q.1 == i.id) = true := by
            rw [List.any_eq_true]
            exact ⟨p, hp, by simp [hp1, hiid]⟩
          rw [hanyt] at hkeep
          simp only [Bool.true_and, Bool.not_eq_true'] at hkeep
          have : i.cantidad ≠ 0 := by
            intro hcon
            rw [hcon] at hkeep
            simp at hkeep
          omega
    · intro i hi hic j hj
      intro hcon
      rw [hst1] at hj
      obtain ⟨hmm, hkeep⟩ := List.mem_filter.mp hj
      obtain ⟨x, hx, hxe⟩ := List.mem_map.mp hmm
      have hjid : j.id = x.id := by
        cases hf : cs.find? (fun p => p.1 == x.id) <;> simp only [hf] at hxe <;> rw [← hxe]
      have hxi : x = i :=
        List.inj_on_of_nodup_map hnd hx hi (by rw [← hjid, hcon])
      subst hxi
      cases hf : cs.find? (fun p => p.1 == x.id) with
      | none =>
          have := List.find?_eq_none.mp hf (x.id, x.cantidad) hic
          simp at this
      | some p =>
          simp only [hf] at hxe
          have hp : p ∈ cs := List.mem_of_find?_eq_some hf
          have hp1 : p.1 = x.id := by
            have := List.find?_some hf
            exact beq_iff_eq.mp this
          have hpe : p = (x.id, x.cantidad) := by
            apply List.inj_on_of_nodup_map hcsnd hp hic
            simp [hp1]
          have hj0 : j.cantidad = 0 := by
            rw [← hxe]
            simp only
            rw [hpe]
            simp
          have hanyt : cs.any (fun q => q.1 == j.id) = true := by
            rw [List.any_eq_true]
            refine ⟨p, hp, ?_⟩
            simp [hp1, hjid]
          rw [hanyt, hj0] at hkeep
          simp at hkeep

theorem positividad_preservada_witness :
    (∀ p ∈ [((31 : Nat), (50 : Int)), (30, 70)], 0 < p.2)
    ∧ (∀ i ∈ stW.inventarios, (i.id, i.cantidad) ∈ [((31 : Nat), (50 : Int)), (30, 70)] →
        ∀ j ∈ ({ stW with inventarios :=
          [{ id := 30, lote_id := 10, ubicacion_id := 20, cantidad := 30,
             fecha_ingreso := 1, estado := .DISPONIBLE },
           { id := 32, lote_id := 12, ubicacion_id := 21, cantidad := 200,
             fecha_ingreso := 3, estado := .BLOQUEADO }] } : State).inventarios, j.id ≠ i.id) := by
  have h := (positividad_preservada stW).2 1 120 none
    { stW with inventarios :=
        [{ id := 30, lote_id := 10, ubicacion_id := 20, cantidad := 30,
           fecha_ingreso := 1, estado := .DISPONIBLE },
         { id := 32, lote_id := 12, ubicacion_id := 21, cantidad := 200,
           fecha_ingreso := 3, estado := .BLOQUEADO }] }
    [(31, 50), (30, 70)] (by decide) rfl
  exact ⟨h.1, h.2.2⟩

/-! ### C5: a failing association step and the fate of its row -/

/-- A data row whose catalog fields are all valid but whose `precio` cell is
blank, so the catalog upsert succeeds and then `_row_to_asociacion` raises. -/
def rowC5 : Row :=
  [("sku", "A"), ("nombre", "N"), ("categoria", "C"), ("temp_min", ""),
   ("temp_max", ""), ("controlado", "1"), ("precio", ""), ("moneda", "USD"),
   ("lead_time_dias", "5"), ("lote_minimo", "1"), ("activo", "1")]

/-- C5 counterexample. On `rowC5` the catalog upsert succeeds and commits
(the product with sku `A` is in the final store), but the failure of the
association-payload step makes the pipeline count the row as an error, not as
inserted: `insertados = 0` and `errores` has an entry for the row — contrary
to the claim that such a row is still counted as inserted and produces no
error entry. -/
theorem asociacion_failure_counterexample :
    procesar_csv_productos (fun _ => .ok ()) stEmpty REQUIRED_HEADERS [rowC5]
      = .ok ({ stEmpty with
                productos := [{ id := 0, sku := "A", nombre := "N", categoria := "C",
                                temp_min := none, temp_max := none, controlado := true }],
                nextId := 1 },
             { total := 1, insertados := 0,
               errores := [(2, "Campo requerido vacío en asociación: precio")] }) := by
  rfl

theorem crear_o_recuperar_mem (st : State) (core : ProductoCore)
    (st1 : State) (p : Producto)
    (h : crear_o_recuperar_producto st core = .ok (st1, p)) : p ∈ st1.productos := by
  unfold crear_o_recuperar_producto at h
  cases hf : get_producto_por_sku st core.sku with
  | some q =>
      simp only [hf, Except.ok.injEq, Prod.mk.injEq] at h
      rw [← h.1, ← h.2]
      exact List.mem_of_find?_eq_some hf
  | none =>
      simp only [hf] at h
      unfold crear_producto at h
      by_cases ha : st.productos.any (fun q => q.sku == core.sku) = true
      · rw [List.any_eq_true] at ha
        obtain ⟨x, hx, hxe⟩ := ha
        exact absurd hxe (List.find?_eq_none.mp hf x hx)
      · rw [if_neg ha] at h
        simp only [Except.ok.injEq, Prod.mk.injEq] at h
        rw [← h.1, ← h.2]
        simp

/-- C5 amended. When a row's catalog fields convert and its upsert
succeeds but the association step fails — either building the payload
(`_row_to_asociacion`) or forwarding it (`client.post`) — the product upsert
is **not** rolled back (the product is in the committed store), but the row
**is** marked as failed: it lands in `errores` and is not counted in
`insertados`. -/
theorem asociacion_failure_amended
    (post : AsociacionProveedor → Except String Unit) (st st1 : State)
    (row : Row) (core : ProductoCore) (prod : Producto)
    (h1 : row_to_core row = .ok core)
    (h2 : crear_o_recuperar_producto st core = .ok (st1, prod))
    (h3 : (∃ e, row_to_asociacion row prod.id = .error e)
          ∨ (∃ asoc e, row_to_asociacion row prod.id = .ok asoc ∧ post asoc = .error e)) :
    (∃ e, procesar_csv_productos post st REQUIRED_HEADERS [row]
        = .ok (st1, { total := 1, insertados := 0, errores := [(2, e)] }))
    ∧ prod ∈ st1.productos := by
  refine ⟨?_, crear_o_recuperar_mem st core st1 prod h2⟩
  have hrow : ∃ e, procRow post st row = (st1, some e) := by
    rcases h3 with ⟨e, he⟩ | ⟨asoc, e, ha, hp⟩
    · exact ⟨e, by simp only [procRow, h1, h2, he]⟩
    · exact ⟨e, by simp only [procRow, h1, h2, ha, hp]⟩
  obtain ⟨e, he⟩ := hrow
  refine ⟨e, ?_⟩
  unfold procesar_csv_productos
  rw [if_neg (by decide)]
  simp only [List.foldl_cons, List.foldl_nil, csvStep, he]
  simp

theorem asociacion_failure_amended_witness :
    (∃ e, procesar_csv_productos (fun _ => .ok ()) stEmpty REQUIRED_HEADERS [rowC5]
        = .ok ({ stEmpty with
                  productos := [{ id := 0, sku := "A", nombre := "N", categoria := "C",
                                  temp_min := none, temp_max := none, controlado := true }],
                  nextId := 1 },
               { total := 1, insertados := 0, errores := [(2, e)] }))
    ∧ ({ id := 0, sku := "A", nombre := "N", categoria := "C",
         temp_min := none, temp_max := none, controlado := true } : Producto)
        ∈ ({ stEmpty with
              productos := [{ id := 0, sku := "A", nombre := "N", categoria := "C",
                              temp_min := none, temp_max := none, controlado := true }],
              nextId := 1 } : State).productos :=
  asociacion_failure_amended (fun _ => .ok ()) stEmpty
    { stEmpty with
        productos := [{ id := 0, sku := "A", nombre := "N", categoria := "C",
                        temp_min := none, temp_max := none, controlado := true }],
        nextId := 1 }
    rowC5
    { sku := "A", nombre := "N", categoria := "C",
      temp_min := none, temp_max := none, controlado := true }
    { id := 0, sku := "A", nombre := "N", categoria := "C",
      temp_min := none, temp_max := none, controlado := true }
    rfl rfl (Or.inl ⟨"Campo requerido vacío en asociación: precio", rfl⟩)

/-! ### C6: ingesting the same sku twice -/

/-- A fully valid route-pipeline data row with sku `A`. -/
def rowC6 : Row :=
  [("sku", "A"), ("nombre", "N"), ("categoria", "C"), ("temp_min", ""),
   ("temp_max", ""), ("controlado", "true")]

/-- C6 counterexample. Feeding the same valid sku twice in one batch to
the route-level pipeline (`_process_rows`, the handler of the CSV upload
endpoint, one of the two ingestion paths of the repository) yields exactly
one Product row, but the second occurrence is recorded as a `SKU ya existe`
row error and is **not** counted as inserted — contrary to the claim that the
second occurrence is counted as inserted and the conflict falls back to a
lookup on this path. -/
theorem duplicate_sku_route_counterexample :
    (process_rows stEmpty [rowC6, rowC6]).2.1 = 1
    ∧ (process_rows stEmpty [rowC6, rowC6]).2.2 = [(3, "A", "SKU ya existe")]
    ∧ (process_rows stEmpty [rowC6, rowC6]).1.productos.map Producto.sku = ["A"] :=
  ⟨rfl, rfl, rfl⟩

/-- Number of Product rows carrying a given sku. -/
def skuCount (st : State) (s : String) : Nat :=
  (st.productos.filter (fun p => p.sku == s)).length

theorem crear_producto_ok_shape (st : State) (core : ProductoCore)
    (st1 : State) (p : Producto)
    (h : crear_producto st core = .ok (st1, p)) :
    st1.productos = st.productos ++ [p] ∧ p.sku = core.sku
    ∧ ∀ q ∈ st.productos, q.sku ≠ core.sku := by
  unfold crear_producto at h
  by_cases ha : st.productos.any (fun q => q.sku == core.sku) = true
  · rw [if_pos ha] at h
    exact absurd h (by simp)
  · rw [if_neg ha] at h
    simp only [Except.ok.injEq, Prod.mk.injEq] at h
    have hall := List.any_eq_false.mp (by
      rw [← Bool.not_eq_true]
      exact ha)
    refine ⟨?_, ?_, ?_⟩
    · rw [← h.1, ← h.2]
    · rw [← h.2]
    · intro q hq hcon
      exact hall q hq (by simp [hcon])

theorem routeStep_pairwise (acc : State × Nat × List (Nat × String × String)) (row : Row)
    (hpw : acc.1.productos.Pairwise (fun a b => a.sku ≠ b.sku)) :
    (routeStep acc row).1.productos.Pairwise (fun a b => a.sku ≠ b.sku) := by
  unfold routeStep
  cases hpay : route_row_to_payload row with
  | error e => exact hpw
  | ok payload =>
      simp only
      by_cases hblank : payload.sku = "" || payload.nombre = "" || payload.categoria = ""
      · rw [if_pos hblank]
        exact hpw
      · rw [if_neg hblank]
        cases hcrear : crear_producto acc.1 payload with
        | error e => exact hpw
        | ok r =>
            obtain ⟨hlist, hsku, hnone⟩ :=
              crear_producto_ok_shape acc.1 payload r.1 r.2 (by rw [hcrear])
            simp only
            rw [hlist]
            rw [List.pairwise_append]
            refine ⟨hpw, by simp, ?_⟩
            intro a ha b hb
            have hbe : b = r.2 := by simpa using hb
            rw [hbe, hsku]
            exact hnone a ha

/-- C6 amended. Ingesting the same sku twice yields exactly one Product
row on both ingestion paths, but the paths treat the duplicate differently.
Service path (`crear_o_recuperar_producto`, used by `procesar_csv_productos`):
the upsert always succeeds, returns a product with the requested sku, never
raises the sku count above one (a conflict falls back to a lookup), and a
repeat call is idempotent — it returns the same store and the same product
identifier.  Route path (`_process_rows`): duplicate-sku uniqueness of the
catalog is preserved — the second occurrence cannot create a second row (it
is recorded as a row error instead, as the counterexample shows). -/
theorem upsert_idempotente (st : State) (core : ProductoCore) :
    (∃ st1 p1, crear_o_recuperar_producto st core = .ok (st1, p1) ∧
       p1.sku = core.sku ∧
       skuCount st1 core.sku = max (skuCount st core.sku) 1 ∧
       crear_o_recuperar_producto st1 core = .ok (st1, p1))
    ∧ (∀ rows : List Row, st.productos.Pairwise (fun a b => a.sku ≠ b.sku) →
        (process_rows st rows).1.productos.Pairwise (fun a b => a.sku ≠ b.sku)) := by
  constructor
  · cases hf : get_producto_por_sku st core.sku with
    | some p =>
        have hcall : crear_o_recuperar_producto st core = .ok (st, p) := by
          unfold crear_o_recuperar_producto
          rw [hf]
        have hsku : p.sku = core.sku := by
          have := List.find?_some hf
          exact beq_iff_eq.mp this
        have hone : 1 ≤ skuCount st core.sku := by
          have hmem : p ∈ st.productos.filter (fun q => q.sku == core.sku) :=
            List.mem_filter.mpr ⟨List.mem_of_find?_eq_some hf, by simp [hsku]⟩
          have : st.productos.filter (fun q => q.sku == core.sku) ≠ [] := by
            intro hcon
            rw [hcon] at hmem
            exact absurd hmem (List.not_mem_nil p)
          have := List.length_pos.mpr this
          unfold skuCount
          omega
        exact ⟨st, p, hcall, hsku, by omega, hcall⟩
    | none =>
        have hall : ∀ q ∈ st.productos, (q.sku == core.sku) = false := by
          intro q hq
          have := List.find?_eq_none.mp hf q hq
          simpa using this
        have hany : ¬ (st.productos.any (fun q => q.sku == core.sku) = true) := by
          rw [Bool.not_eq_true, List.any_eq_false]
          intro q hq
          simp [hall q hq]
        have hcrear : crear_producto st core = .ok
            ({ st with
                productos := st.productos ++
                  [{ id := st.nextId, sku := core.sku, nombre := core.nombre,
                     categoria := core.categoria, temp_min := core.temp_min,
                     temp_max := core.temp_max, controlado := core.controlado }],
                nextId := st.nextId + 1 },
             { id := st.nextId, sku := core.sku, nombre := core.nombre,
               categoria := core.categoria, temp_min := core.temp_min,
               temp_max := core.temp_max, controlado := core.controlado }) := by
          unfold crear_producto
          rw [if_neg hany]
        have hcall : crear_o_recuperar_producto st core = .ok
            ({ st with
                productos := st.productos ++
                  [{ id := st.nextId, sku := core.sku, nombre := core.nombre,
                     categoria := core.categoria, temp_min := core.temp_min,
                     temp_max := core.temp_max, controlado := core.controlado }],
                nextId := st.nextId + 1 },
             { id := st.nextId, sku := core.sku, nombre := core.nombre,
               categoria := core.categoria, temp_min := core.temp_min,
               temp_max := core.temp_max, controlado := core.controlado }) := by
          unfold crear_o_recuperar_producto
          rw [hf, hcrear]
        refine ⟨_, _, hcall, rfl, ?_, ?_⟩
        · have hcount0 : skuCount st core.sku = 0 := by
            unfold skuCount
            rw [List.filter_eq_nil_iff.mpr (fun q hq => by simp [hall q hq])]
            rfl
          unfold skuCount
          simp only [List.filter_append]
          rw [List.filter_eq_nil_iff.mpr (fun q hq => by simp [hall q hq])]
          simp [hcount0, skuCount] at hcount0 ⊢
        · unfold crear_o_recuperar_producto
          have hfind2 : get_producto_por_sku
              { st with
                  productos := st.productos ++
                    [{ id := st.nextId, sku := core.sku, nombre := core.nombre,
                       categoria := core.categoria, temp_min := core.temp_min,
                       temp_max := core.temp_max, controlado := core.controlado }],
                  nextId := st.nextId + 1 } core.sku
              = some { id := st.nextId, sku := core.sku, nombre := core.nombre,
                       categoria := core.categoria, temp_min := core.temp_min,
                       temp_max := core.temp_max, controlado := core.controlado } := by
            unfold get_producto_por_sku at hf ⊢
            simp only [List.find?_append, hf, Option.none_or]
            rw [List.find?_cons_of_pos _ (by simp)]
          rw [hfind2]
  · intro rows
    have : ∀ (rows : List Row) (acc : State × Nat × List (Nat × String × String)),
        acc.1.productos.Pairwise (fun a b => a.sku ≠ b.sku) →
        (rows.foldl routeStep acc).1.productos.Pairwise (fun a b => a.sku ≠ b.sku) := by
      intro rows2
      induction rows2 with
      | nil => intro acc h; exact h
      | cons row rest ih =>
          intro acc h
          simp only [List.foldl_cons]
          exact ih (routeStep acc row) (routeStep_pairwise acc row h)
    intro hpw
    exact this rows (st, 0, []) hpw

theorem upsert_idempotente_witness :
    (∃ st1 p1, crear_o_recuperar_producto stEmpty
        { sku := "A", nombre := "N", categoria := "C",
          temp_min := none, temp_max := none, controlado := true } = .ok (st1, p1) ∧
       p1.sku = "A" ∧
       skuCount st1 "A" = max (skuCount stEmpty "A") 1 ∧
       crear_o_recuperar_producto st1
        { sku := "A", nombre := "N", categoria := "C",
          temp_min := none, temp_max := none, controlado := true } = .ok (st1, p1))
    ∧ (process_rows stEmpty [rowC6, rowC6]).1.productos.Pairwise
        (fun a b => a.sku ≠ b.sku) :=
  ⟨(upsert_idempotente stEmpty
      { sku := "A", nombre := "N", categoria := "C",
        temp_min := none, temp_max := none, controlado := true }).1,
   (upsert_idempotente stEmpty
      { sku := "A", nombre := "N", categoria := "C",
        temp_min := none, temp_max := none, controlado := true }).2
     [rowC6, rowC6] (by decide)⟩

/-! ### C9: total stock versus detailed stock -/

theorem sum_groups {κ : Type} [BEq κ] [LawfulBEq κ] (key : Inventario → κ) (f : Inventario → Int) :
    ∀ (keys : List κ) (L : List Inventario), keys.Nodup → (∀ a ∈ L, key a ∈ keys) →
    (keys.map (fun k => ((L.filter (fun a => key a == k)).map f).sum)).sum
      = (L.map f).sum := by
  intro keys
  induction keys with
  | nil =>
      intro L _ hcov
      have hL : L = [] := by
        cases L with
        | nil => rfl
        | cons a t => exact absurd (hcov a (List.mem_cons_self a t)) (List.not_mem_nil _)
      rw [hL]
      simp
  | cons k ks ih =>
      intro L hnd hcov
      have hnd2 : k ∉ ks ∧ ks.Nodup := by
        rw [List.nodup_cons] at hnd
        exact hnd
      have hsplit : (L.map f).sum
          = ((L.filter (fun a => key a == k)).map f).sum
            + ((L.filter (fun a => !(key a == k))).map f).sum := by
        have hperm := List.filter_append_perm (fun a => key a == k) L
        have hsum := (hperm.map f).sum_eq
        rw [← hsum, List.map_append, List.sum_append]
      have hmapeq : ks.map (fun k2 => ((L.filter (fun a => key a == k2)).map f).sum)
          = ks.map (fun k2 =>
              (((L.filter (fun a => !(key a == k))).filter (fun a => key a == k2)).map f).sum) := by
        apply List.map_congr_left
        intro k2 hk2
        have hne : k2 ≠ k := fun hcon => hnd2.1 (hcon ▸ hk2)
        have hff : (L.filter (fun a => !(key a == k))).filter (fun a => key a == k2)
            = L.filter (fun a => key a == k2) := by
          rw [List.filter_filter]
          apply List.filter_congr
          intro a _
          cases hb : (key a == k2) with
          | false => simp [hb]
          | true =>
              have h2 : key a = k2 := eq_of_beq hb
              have h3 : (key a == k) = false := by
                rw [beq_eq_false_iff_ne, h2]
                exact hne
              simp [hb, h3]
        rw [hff]
      have hcov2 : ∀ a ∈ L.filter (fun a => !(key a == k)), key a ∈ ks := by
        intro a ha
        obtain ⟨haL, hak⟩ := List.mem_filter.mp ha
        rcases List.mem_cons.mp (hcov a haL) with h | h
        · exfalso
          simp [h] at hak
        · exact h
      have ihL := ih (L.filter (fun a => !(key a == k))) hnd2.2 hcov2
      simp only [List.map_cons, List.sum_cons]
      rw [hmapeq, ihL, hsplit]

/-- C9. `stock_por_producto` sums quantity over AVAILABLE records only
(by definition), while `stock_detallado` groups by (lot code, expiry,
location) and sums quantity over records of **every** status, with the
output ordered by ascending expiry, nulls last.  Under referential integrity
(each counted record's location row exists) and the positive-quantity store
invariant: the detailed rows sum to the all-status total of the product, the
AVAILABLE-only total is bounded by it, and the two are equal exactly when
every stock record of the product is AVAILABLE. -/
theorem stock_total_vs_detallado (st : State) (pid : Nat)
    (hub : ∀ inv ∈ st.inventarios, loteDeProducto st pid inv = true →
        st.ubicaciones.any (fun u => u.id == inv.ubicacion_id) = true)
    (hpos : ∀ inv ∈ st.inventarios, 0 < inv.cantidad) :
    List.Sorted detRel (stock_detallado st pid)
    ∧ ((stock_detallado st pid).map Prod.snd).sum
        = ((st.inventarios.filter (loteDeProducto st pid)).map Inventario.cantidad).sum
    ∧ stock_por_producto st pid ≤ ((stock_detallado st pid).map Prod.snd).sum
    ∧ (stock_por_producto st pid = ((stock_detallado st pid).map Prod.snd).sum
        ↔ ∀ inv ∈ st.inventarios, loteDeProducto st pid inv = true →
            inv.estado = .DISPONIBLE) := by
  have hdet_filter : st.inventarios.filter (detMatch st pid)
      = st.inventarios.filter (loteDeProducto st pid) := by
    apply List.filter_congr
    intro inv hmem
    by_cases hl : loteDeProducto st pid inv = true
    · simp [detMatch, hl, hub inv hmem hl]
    · have hl2 : loteDeProducto st pid inv = false := by
        rw [← Bool.not_eq_true]
        exact hl
      simp [detMatch, hl2]
  have hsum_det : ((stock_detallado st pid).map Prod.snd).sum
      = ((st.inventarios.filter (loteDeProducto st pid)).map Inventario.cantidad).sum := by
    have hperm := (List.perm_insertionSort detRel (detGrupos st pid)).map Prod.snd
    rw [stock_detallado, hperm.sum_eq]
    unfold detGrupos
    rw [List.map_map]
    have hcomp : (Prod.snd ∘ fun k : String × Option Nat × Nat => (k,
        (((st.inventarios.filter (detMatch st pid)).filter
            (fun i => detKey st i == k)).map Inventario.cantidad).sum))
        = fun k => (((st.inventarios.filter (detMatch st pid)).filter
            (fun i => detKey st i == k)).map Inventario.cantidad).sum := rfl
    rw [hcomp]
    have hg := sum_groups (detKey st) Inventario.cantidad
      ((st.inventarios.filter (detMatch st pid)).map (detKey st)).dedup
      (st.inventarios.filter (detMatch st pid))
      (List.nodup_dedup _)
      (fun a ha => List.mem_dedup.mpr (List.mem_map_of_mem (detKey st) ha))
    rw [← hdet_filter]
    exact hg
  have hstock : stock_por_producto st pid
      = (((st.inventarios.filter (loteDeProducto st pid)).filter
          (fun inv => inv.estado == .DISPONIBLE)).map Inventario.cantidad).sum := by
    unfold stock_por_producto
    rw [List.filter_filter]
  have hsplit : ((st.inventarios.filter (loteDeProducto st pid)).map Inventario.cantidad).sum
      = (((st.inventarios.filter (loteDeProducto st pid)).filter
            (fun inv => inv.estado == .DISPONIBLE)).map Inventario.cantidad).sum
        + (((st.inventarios.filter (loteDeProducto st pid)).filter
            (fun inv => !(inv.estado == .DISPONIBLE))).map Inventario.cantidad).sum := by
    have hperm := List.filter_append_perm (fun inv => inv.estado == InventarioEstadoEnum.DISPONIBLE)
      (st.inventarios.filter (loteDeProducto st pid))
    have hsum := (hperm.map Inventario.cantidad).sum_eq
    rw [← hsum, List.map_append, List.sum_append]
  have hpos_rest : ∀ x ∈ ((st.inventarios.filter (loteDeProducto st pid)).filter
      (fun inv => !(inv.estado == .DISPONIBLE))).map Inventario.cantidad, 0 < x := by
    intro x hx
    obtain ⟨inv, hinv, hxe⟩ := List.mem_map.mp hx
    have hinv2 := (List.mem_filter.mp (List.mem_filter.mp hinv).1).1
    rw [← hxe]
    exact hpos inv hinv2
  have hnn_rest : 0 ≤ (((st.inventarios.filter (loteDeProducto st pid)).filter
      (fun inv => !(inv.estado == .DISPONIBLE))).map Inventario.cantidad).sum :=
    List.sum_nonneg (fun x hx => le_of_lt (hpos_rest x hx))
  refine ⟨List.sorted_insertionSort detRel (detGrupos st pid), hsum_det, ?_, ?_⟩
  · rw [hsum_det, hstock, hsplit]
    omega
  · rw [hsum_det, hstock, hsplit]
    constructor
    · intro heq inv hmem hl
      have hzero : (((st.inventarios.filter (loteDeProducto st pid)).filter
          (fun inv => !(inv.estado == .DISPONIBLE))).map Inventario.cantidad).sum = 0 := by
        omega
      have hempty : (st.inventarios.filter (loteDeProducto st pid)).filter
          (fun inv => !(inv.estado == .DISPONIBLE)) = [] := by
        by_contra hne
        have hmapne : ((st.inventarios.filter (loteDeProducto st pid)).filter
            (fun inv => !(inv.estado == .DISPONIBLE))).map Inventario.cantidad ≠ [] := by
          intro hcon
          exact hne (List.map_eq_nil.mp hcon)
        have := List.sum_pos _ hpos_rest hmapne
        omega
      by_contra hnd
      have hinvA : inv ∈ (st.inventarios.filter (loteDeProducto st pid)).filter
          (fun inv => !(inv.estado == .DISPONIBLE)) := by
        apply List.mem_filter.mpr
        refine ⟨List.mem_filter.mpr ⟨hmem, hl⟩, ?_⟩
        simp [hnd]
      rw [hempty] at hinvA
      exact absurd hinvA (List.not_mem_nil inv)
    · intro hall
      have hempty : (st.inventarios.filter (loteDeProducto st pid)).filter
          (fun inv => !(inv.estado == .DISPONIBLE)) = [] := by
        rw [List.filter_eq_nil_iff]
        intro inv hinv
        obtain ⟨hmem, hl⟩ := List.mem_filter.mp hinv
        simp [hall inv hmem hl]
      rw [hempty]
      simp

theorem stock_total_vs_detallado_witness :
    stock_por_producto stW 1 ≤ ((stock_detallado stW 1).map Prod.snd).sum
    ∧ (stock_por_producto stW 1 = ((stock_detallado stW 1).map Prod.snd).sum
        ↔ ∀ inv ∈ stW.inventarios, loteDeProducto stW 1 inv = true →
            inv.estado = .DISPONIBLE) := by
  have h := stock_total_vs_detallado stW 1 (by decide) (by decide)
  exact ⟨h.2.2.1, h.2.2.2⟩

end MsInventario
